import Mathlib

/-!
Verification of the block-structured extent algebra of `BSExtent`
(src/SolverUtils/include/BSMesh.H).

The C++ class `BSExtent<T>` derives from `std::vector<std::vector<T>>`:
the inherited vector holds the per-dimension bound rows, and the private
members `_nd`, `_N`, `_Np` hold the dimension count, per-dimension sizes
and strides.  We embed it as a structure with those four components,
with `T` rendered as `Int` and the `size_t` members as `Nat`.
Out-of-range `std::vector` accesses (undefined behaviour in the source)
are rendered as `Option.none`; `size_t` arithmetic wraps modulo `2 ^ 64`.
-/

namespace SolverUtils
namespace Mesh

/-- Conversion of a `T` value to `size_t`, wrapping modulo `2 ^ 64`
(used when `(*this)[i][1] - (*this)[i][0] + 1` is stored into
the `size_t` vector `_N`). -/
def toSize (x : Int) : Nat := (x % (2 ^ 64 : Int)).toNat

/-- The `BSExtent<T>` object: `base` is the inherited
`std::vector<std::vector<T>>` of bound rows, `nd` is `_nd`,
`N` is `_N` (sizes) and `Np` is `_Np` (strides). -/
structure BSExtent where
  base : List (List Int)
  nd : Nat
  N : List Nat
  Np : List Nat
deriving DecidableEq, Repr

/-- The default constructor `BSExtent()`: everything empty, `_nd = 0`. -/
def emptyBS : BSExtent := { base := [], nd := 0, N := [], Np := [] }

/-- The `_N` recomputation loop of `Sync`:
`_N[i] = (*this)[i][1] - (*this)[i][0] + 1` for every dimension,
reading entries `0` and `1` of each bound row (out of range when a row
is shorter than two entries). -/
def syncN : List (List Int) → Option (List Nat)
  | [] => some []
  | row :: rest => do
    let lo ← row.get? 0
    let hi ← row.get? 1
    let ns ← syncN rest
    some (toSize (hi - lo + 1) :: ns)

/-- The `_Np` recomputation of `Sync`: `_Np[0] = 1` and
`_Np[i] = _N[i-1] * _Np[i-1]` in `size_t` arithmetic. -/
def strideList : List Nat → Nat → List Nat
  | [], _ => []
  | n :: t, acc => acc :: strideList t (n * acc % 2 ^ 64)

/-- `BSExtent::Sync` (BSMesh.H lines 84-95): recomputes `_nd`, `_N`, `_Np`
from the current bound rows.  The unconditional write `_Np[0] = 1` is an
out-of-range access when the extent has zero dimensions. -/
def Sync (e : BSExtent) : Option BSExtent := do
  let N ← syncN e.base
  if e.base.length = 0 then none
  else some { base := e.base, nd := e.base.length, N := N, Np := strideList N 1 }

/-- The nested-bounds constructor `BSExtent(const vector<vector<T>>&)`
(lines 30-38): copies every row verbatim, then calls `Sync`.
No validation of the row contents is performed. -/
def mkNested (inextent : List (List Int)) : Option BSExtent :=
  Sync { base := inextent, nd := 0, N := [], Np := [] }

/-- The pairing loop of the flat constructor: consumes the flat sequence
two values at a time, making `inflatextent.size() / 2` rows; a trailing
odd value is never read. -/
def chunk2 : List Int → List (List Int)
  | lo :: hi :: t => [lo, hi] :: chunk2 t
  | _ => []

/-- The flat-sequence constructor `BSExtent(const vector<T>&)`
(lines 39-50): `_nd = size / 2`, rows paired off the flat data, `Sync`.
No validation (odd length silently truncated, `lo > hi` accepted). -/
def mkFlat (inflatextent : List Int) : Option BSExtent :=
  Sync { base := chunk2 inflatextent, nd := 0, N := [], Np := [] }

/-- The raw-buffer constructor `BSExtent(const T *src, int nd)`
(lines 51-62): reads `2 * nd` values from `src` (out of range when the
buffer is shorter), then `Sync`. -/
def mkRaw (src : List Int) (nd : Nat) : Option BSExtent := do
  let rows ← (List.range nd).mapM (fun i => do
    let lo ← src.get? (2 * i)
    let hi ← src.get? (2 * i + 1)
    some [lo, hi])
  Sync { base := rows, nd := 0, N := [], Np := [] }

/-- `BSExtent::Init` (lines 71-83): `destroy()` then the same pairing
loop as the flat constructor, then `Sync`; the previous contents of the
extent are discarded entirely. -/
def Init (_e : BSExtent) (inflatextent : List Int) : Option BSExtent :=
  mkFlat inflatextent

/-- `BSExtent::ND` (line 105): `this->size()`, the number of bound rows. -/
def ND (e : BSExtent) : Nat := e.base.length

/-- A well-formed extent value over explicit `(lo, hi)` bound pairs, as
the nested constructor produces it (bound rows of length two, `_nd` the
dimension count, `_N`/`_Np` freshly synced). -/
def ofPairs (ps : List (Int × Int)) : BSExtent :=
  { base := ps.map (fun p => [p.1, p.2])
    nd := ps.length
    N := ps.map (fun p => toSize (p.2 - p.1 + 1))
    Np := strideList (ps.map (fun p => toSize (p.2 - p.1 + 1))) 1 }

/-- The match loop of `BSExtent::Overlap` (lines 146-153):
`for (j = 0; j < nd && match; j++)` over the bound rows of `*this` and
`inextent` in step, with per-dimension test
`((*this)[j][0] >= in[j][0] && (*this)[j][0] <= in[j][1]) ||
 ((*this)[j][1] >= in[j][0] && (*this)[j][1] <= in[j][1])`.
The `Nat` argument is the remaining iteration count `nd - j`; running out
of `inextent` rows while iterations remain is an out-of-range access. -/
def matchLoop : List (List Int) → List (List Int) → Nat → Option Bool
  | _, _, 0 => some true
  | arow :: arest, brow :: brest, k + 1 => do
    let a0 ← arow.get? 0
    let a1 ← arow.get? 1
    let b0 ← brow.get? 0
    let b1 ← brow.get? 1
    if (b0 ≤ a0 && a0 ≤ b1) || (b0 ≤ a1 && a1 ≤ b1) then
      matchLoop arest brest k
    else some false
  | _, _, _ + 1 => none

/-- The fill loop of `BSExtent::Overlap` (lines 155-160): for each of the
`nd` dimensions, `outextent[i][0] = max((*this)[i][0], in[i][0])` and
`outextent[i][1] = min((*this)[i][1], in[i][1])`. -/
def fillLoop : List (List Int) → List (List Int) → Nat → Option (List (List Int))
  | _, _, 0 => some []
  | arow :: arest, brow :: brest, k + 1 => do
    let a0 ← arow.get? 0
    let a1 ← arow.get? 1
    let b0 ← brow.get? 0
    let b1 ← brow.get? 1
    let rest ← fillLoop arest brest k
    some ([max a0 b0, min a1 b1] :: rest)
  | _, _, _ + 1 => none

/-- `BSExtent::Overlap(inextent, outextent)` (lines 143-162), where `A`
plays `*this`, `B` plays `inextent` and `outPrev` is the value of the
output argument before the call.  `nd` is `A`'s own dimension count;
`outextent.resize(0)` clears only the inherited bound vector, and the
private members `_nd`, `_N`, `_Np` of the output argument are never
touched, so they are carried over from `outPrev` unchanged. -/
def Overlap (A B outPrev : BSExtent) : Option BSExtent := do
  let nd := ND A
  let m ← matchLoop A.base B.base nd
  if m then do
    let rows ← fillLoop A.base B.base nd
    some { base := rows, nd := outPrev.nd, N := outPrev.N, Np := outPrev.Np }
  else
    some { base := [], nd := outPrev.nd, N := outPrev.N, Np := outPrev.Np }

/-- `Overlap` called with a freshly default-constructed output extent,
as `FindSharedNodes` does. -/
def overlapRun (A B : BSExtent) : Option BSExtent := Overlap A B emptyBS

/-- The downstream "no overlap region" test: `outextent.empty()` on the
inherited bound vector (as `FindSharedNodes` checks it). -/
def noRegionB (r : Option BSExtent) : Bool :=
  match r with
  | some e => e.base.isEmpty
  | none => false

/-- The comparison `*epi != *this` in `FindSharedNodes` resolves to the
elementwise `std::vector` equality of the inherited bound vectors; the
private members `_nd`, `_N`, `_Np` do not participate. -/
def bsEq (a b : BSExtent) : Bool := a.base == b.base

/-- The pool-scanning loop of `BSExtent::FindSharedNodes` (lines 167-180):
walks the pool with counter `nindex`, skips entries with `*epi != *this`
false (value equality of bounds), computes `Overlap` into a freshly
default-constructed extent, and on a non-empty result pushes `nindex`
onto `neighbors` and the overlap onto `shared_extents`. -/
def fsnAux (self : BSExtent) :
    List BSExtent → List BSExtent → List Int → Int →
    Option (List BSExtent × List Int)
  | [], sh, nb, _ => some (sh, nb)
  | ep :: rest, sh, nb, nidx =>
    if bsEq ep self then fsnAux self rest sh nb (nidx + 1)
    else
      match Overlap self ep emptyBS with
      | none => none
      | some ov =>
        if ov.base.isEmpty then fsnAux self rest sh nb (nidx + 1)
        else fsnAux self rest (sh ++ [ov]) (nb ++ [nidx]) (nidx + 1)

/-- `BSExtent::FindSharedNodes(extent_pool, shared_extents, neighbors)`
(lines 163-181): `shared_extents.resize(0)` discards the previous
contents of `sharedPrev`, but `neighbors` is never cleared, so new pool
indices are appended after `neighborsPrev`. -/
def FindSharedNodes (self : BSExtent) (extent_pool : List BSExtent)
    (_sharedPrev : List BSExtent) (neighborsPrev : List Int) :
    Option (List BSExtent × List Int) :=
  fsnAux self extent_pool [] neighborsPrev 0

/-- `if i < l.length` element update, for single `std::vector` stores
(`v[i] = a`); out of range otherwise. -/
def setNth (l : List α) (i : Nat) (a : α) : Option (List α) :=
  if i < l.length then some (l.set i a) else none

/-- The local `N` vector of `GetFlatIndices` (lines 136-139):
`N[nc] = (*this)[nc][1] - (*this)[nc][0] + 1` in `T` arithmetic. -/
def buildN (base : List (List Int)) : Option (List Int) :=
  base.mapM (fun row => do
    let lo ← row.get? 0
    let hi ← row.get? 1
    some (hi - lo + 1))

/-- The local `NP` vector of `GetFlatIndices`:
`NP[nc] = (nc == 0 ? 1 : N[nc-1] * NP[nc-1])` in `T` arithmetic. -/
def stridesT : List Int → Int → List Int
  | [], _ => []
  | n :: t, acc => acc :: stridesT t (n * acc)

/-- `BSExtent::dir_loop` (lines 115-130), recursing on the dimension
argument `nd`.  `dindex = nd - 1`; the read `plane += NP[dindex]` is an
out-of-range access when `nd = 0` (`NP[-1]`).  The loop runs
`dd = inextent[dindex][0] .. inextent[dindex][1]`; at `dindex == 0` it
pushes `dd - (*this)[0][0] + 1 + indoff`, otherwise it recurses with
`ndoff = indoff + (dd - (*this)[dindex][0]) * NP[dindex]`.  (The `N` and
`plane` parameters of the source never influence the emitted indices, so
only the `NP[dindex]` bounds check of `plane += NP[dindex]` is kept.) -/
def dirLoop (self query : BSExtent) (NP : List Int) : Nat → Int → Option (List Int)
  | 0, _ => none
  | d + 1, indoff => do
    let npd ← NP.get? d
    let qrow ← query.base.get? d
    let start ← qrow.get? 0
    let stop ← qrow.get? 1
    let srow ← self.base.get? d
    let slo ← srow.get? 0
    if d = 0 then
      some ((List.range (stop - start + 1).toNat).map
        (fun k => start + (k : Int) - slo + 1 + indoff))
    else do
      let parts ← (List.range (stop - start + 1).toNat).mapM
        (fun k => dirLoop self query NP d (indoff + (start + (k : Int) - slo) * npd))
      some parts.flatten

/-- `BSExtent::GetFlatIndices(extent, indices)` (lines 131-142): builds
the local `N`/`NP` vectors from `*this`, then performs the write
`NP[0] = 0` (out of range when the extent has zero dimensions), then
calls `dir_loop(nd, 0, 0, N, NP, extent, indices)`. -/
def GetFlatIndices (self query : BSExtent) : Option (List Int) := do
  let nd := ND self
  let N ← buildN self.base
  let NP ← setNth (stridesT N 1) 0 0
  dirLoop self query NP nd 0

/-- One pass of the degenerate-dimension loop of
`CreateUnstructuredMesh` (lines 195-200): if `_N[i] > 1` then
`lowerleft[i][1]--`, else `mesh_nd--`. -/
def cumStep (Nsizes : List Nat) (st : List (List Int) × Nat) (i : Nat) :
    Option (List (List Int) × Nat) := do
  let Ni ← Nsizes.get? i
  if 1 < Ni then do
    let row ← st.1.get? i
    let hi ← row.get? 1
    let row2 ← setNth row 1 (hi - 1)
    let b2 ← setNth st.1 i row2
    some (b2, st.2)
  else
    some (st.1, st.2 - 1)

/-- `BSExtent::CreateUnstructuredMesh(conn)` (lines 187-222): asserts
`_nd == 3`, clips the lower-left cell region off a copy of the extent
(one `hi` decrement per non-degenerate dimension), asserts
`mesh_nd > 1`, enumerates the flat indices of that region within
`*this`, and for each lower-left node emits a quad (plus the
`planeoffset` top quad when `planeoffset > 0`).  The returned list is
the sequence of elements handed to `conn.AddElement`, in order. -/
def CreateUnstructuredMesh (e : BSExtent) : Option (List (List Int)) :=
  if e.nd ≠ 3 then none
  else do
    let s0 ← cumStep e.N (e.base, 3) 0
    let s1 ← cumStep e.N s0 1
    let s2 ← cumStep e.N s1 2
    if s2.2 ≤ 1 then none
    else do
      let lowerleft : BSExtent := { base := s2.1, nd := e.nd, N := e.N, Np := e.Np }
      let indices ← GetFlatIndices e lowerleft
      let N0 ← e.N.get? 0
      let N1 ← e.N.get? 1
      let offset : Int := if 1 < N0 then (N0 : Int) else (N1 : Int)
      let planeoffset : Int := if s2.2 = 2 then 0 else offset * (N1 : Int)
      some (indices.map (fun idx =>
        if 0 < planeoffset then
          [idx, idx + 1, idx + 1 + offset, idx + offset,
           idx + planeoffset, idx + 1 + planeoffset,
           idx + planeoffset + offset + 1, idx + planeoffset + offset]
        else
          [idx, idx + 1, idx + 1 + offset, idx + offset]))

/-- The wrapping `size_t` decrement `i--` performed by the loop of
`BSExtent::NodeNum` (line 184). -/
def sizeTPred (i : Nat) : Nat := (i + (2 ^ 64 - 1)) % 2 ^ 64

/-- The loop condition `i >= 0` of `BSExtent::NodeNum` (line 184),
evaluated on the unsigned (`size_t`) counter. -/
def nodeNumGuard (i : Nat) : Bool := decide (0 ≤ i)

/-! ### Characterization of `Overlap` on well-formed extents -/

/-- The per-dimension test of the `Overlap` match loop, on a pair of
bound pairs (`q.1` from `*this`, `q.2` from `inextent`). -/
def dimMatchB (q : (Int × Int) × (Int × Int)) : Bool :=
  (q.2.1 ≤ q.1.1 && q.1.1 ≤ q.2.2) || (q.2.1 ≤ q.1.2 && q.1.2 ≤ q.2.2)

/-- All dimensions pass the `Overlap` match test. -/
def matchAll (as bs : List (Int × Int)) : Bool := (as.zip bs).all dimMatchB

/-- The per-dimension `[max lo, min hi]` rows the `Overlap` fill loop
produces. -/
def regionOf (as bs : List (Int × Int)) : List (List Int) :=
  (as.zip bs).map (fun q => [max q.1.1 q.2.1, min q.1.2 q.2.2])

theorem matchLoop_ofPairs : ∀ (as bs : List (Int × Int)), as.length = bs.length →
    matchLoop (as.map (fun p => [p.1, p.2])) (bs.map (fun p => [p.1, p.2])) as.length =
      some (matchAll as bs)
  | [], bs, _ => by simp [matchLoop, matchAll]
  | p :: as, [], h => by simp at h
  | p :: as, q :: bs, h => by
    have ih := matchLoop_ofPairs as bs (by simpa using h)
    simp only [List.map_cons, List.length_cons, matchLoop, List.get?_cons_zero,
      List.get?_cons_succ, Option.bind_eq_bind, Option.some_bind, matchAll,
      List.zip_cons_cons, List.all_cons]
    rw [show (decide (q.1 ≤ p.1) && decide (p.1 ≤ q.2) || decide (q.1 ≤ p.2) && decide (p.2 ≤ q.2))
          = dimMatchB (p, q) from rfl]
    cases hdm : dimMatchB (p, q)
    · simp
    · simpa [matchAll] using ih

theorem fillLoop_ofPairs : ∀ (as bs : List (Int × Int)), as.length = bs.length →
    fillLoop (as.map (fun p => [p.1, p.2])) (bs.map (fun p => [p.1, p.2])) as.length =
      some (regionOf as bs)
  | [], bs, _ => by simp [fillLoop, regionOf]
  | p :: as, [], h => by simp at h
  | p :: as, q :: bs, h => by
    have ih := fillLoop_ofPairs as bs (by simpa using h)
    simp [fillLoop, ih, regionOf]

/-- Full behaviour of `Overlap` on two well-formed extents of equal
dimension: the match loop decides between the `[max lo, min hi]` region
and the empty bound vector; the output's private members stay those of
the default-constructed output extent. -/
theorem overlapRun_ofPairs (as bs : List (Int × Int)) (h : as.length = bs.length) :
    overlapRun (ofPairs as) (ofPairs bs) =
      some { base := if matchAll as bs then regionOf as bs else [],
             nd := 0, N := [], Np := [] } := by
  unfold overlapRun Overlap ND ofPairs emptyBS
  simp only [List.length_map]
  rw [matchLoop_ofPairs as bs h]
  by_cases hm : matchAll as bs
  · simp [hm, fillLoop_ofPairs as bs h]
  · simp [hm]

theorem regionOf_comm : ∀ as bs : List (Int × Int), regionOf as bs = regionOf bs as
  | [], bs => by cases bs <;> simp [regionOf]
  | p :: as, [] => by simp [regionOf]
  | p :: as, q :: bs => by
    have ih := regionOf_comm as bs
    simp [regionOf] at ih ⊢
    exact ⟨⟨max_comm _ _, min_comm _ _⟩, ih⟩

theorem regionOf_length (as bs : List (Int × Int)) (h : as.length = bs.length) :
    (regionOf as bs).length = as.length := by
  simp [regionOf, List.length_zip, h]

/-! ### Derived-field consistency -/

/-- The derived members of an extent agree with its current bound rows:
`_nd` is the row count, `_N` is what the `Sync` size loop computes from
the rows, and `_Np` is the stride cumulative product of `_N`. -/
def derivedOK (e : BSExtent) : Prop :=
  e.nd = e.base.length ∧ syncN e.base = some e.N ∧ e.Np = strideList e.N 1

instance (e : BSExtent) : Decidable (derivedOK e) :=
  inferInstanceAs
    (Decidable (e.nd = e.base.length ∧ syncN e.base = some e.N ∧ e.Np = strideList e.N 1))

theorem sync_derivedOK (e0 e : BSExtent) (h : Sync e0 = some e) : derivedOK e := by
  unfold Sync at h
  cases hN : syncN e0.base with
  | none => simp [hN] at h
  | some N =>
    simp only [hN, Option.bind_eq_bind, Option.some_bind] at h
    by_cases hz : e0.base.length = 0
    · simp [hz] at h
    · simp only [hz, if_false, Option.some_inj] at h
      subst h
      exact ⟨rfl, hN, rfl⟩

theorem overlap_keeps_prev_derived (A B prev e : BSExtent)
    (h : Overlap A B prev = some e) :
    e.nd = prev.nd ∧ e.N = prev.N ∧ e.Np = prev.Np := by
  unfold Overlap at h
  cases hm : matchLoop A.base B.base (ND A) with
  | none => simp [hm] at h
  | some m =>
    simp only [hm, Option.bind_eq_bind, Option.some_bind] at h
    cases m with
    | false =>
      simp only [Bool.false_eq_true, if_false, Option.some_inj] at h
      subst h; exact ⟨rfl, rfl, rfl⟩
    | true =>
      simp only [if_true] at h
      cases hf : fillLoop A.base B.base (ND A) with
      | none => simp [hf] at h
      | some rows =>
        simp only [hf, Option.bind_eq_bind, Option.some_bind, Option.some_inj] at h
        subst h; exact ⟨rfl, rfl, rfl⟩

/-! ### Constructor facts -/

theorem chunk2_length : ∀ l : List Int, (chunk2 l).length = l.length / 2
  | [] => by simp [chunk2]
  | [_] => by simp [chunk2]
  | _ :: _ :: t => by
    simp only [chunk2, List.length_cons, chunk2_length t]
    omega

theorem syncN_chunk2 : ∀ l : List Int, ∃ ns, syncN (chunk2 l) = some ns
  | [] => ⟨[], rfl⟩
  | [_] => ⟨[], rfl⟩
  | a :: b :: t => by
    obtain ⟨ns, hns⟩ := syncN_chunk2 t
    exact ⟨toSize (b - a + 1) :: ns, by simp [chunk2, syncN, hns]⟩

/-! ### The `FindSharedNodes` loop invariant -/

/-- A pool entry is reported by `FindSharedNodes`: it is value-distinct
from the querying extent (the `*epi != *this` test on the bound
vectors) and `Overlap` produces a non-empty region for it. -/
def reportPred (self ep : BSExtent) : Bool :=
  !(bsEq ep self) &&
    (match Overlap self ep emptyBS with
     | some ov => !ov.base.isEmpty
     | none => false)

/-- The pool positions `FindSharedNodes` reports, in pool order,
starting the position counter at `nidx`. -/
def expectedNeighbors (self : BSExtent) : List BSExtent → Int → List Int
  | [], _ => []
  | ep :: rest, nidx =>
    if reportPred self ep then nidx :: expectedNeighbors self rest (nidx + 1)
    else expectedNeighbors self rest (nidx + 1)

theorem fsnAux_spec (self : BSExtent) : ∀ (pool sh : List BSExtent) (nb : List Int)
    (nidx : Int) (r : List BSExtent × List Int),
    fsnAux self pool sh nb nidx = some r →
    ∃ shNew nbNew, r = (sh ++ shNew, nb ++ nbNew) ∧
      nbNew = expectedNeighbors self pool nidx ∧ shNew.length = nbNew.length
  | [], sh, nb, nidx, r, h => by
    simp only [fsnAux, Option.some_inj] at h
    exact ⟨[], [], by simp [← h, expectedNeighbors]⟩
  | ep :: rest, sh, nb, nidx, r, h => by
    by_cases heq : bsEq ep self
    · simp only [fsnAux, heq, if_true] at h
      obtain ⟨shNew, nbNew, hr, hnb, hlen⟩ := fsnAux_spec self rest sh nb (nidx + 1) r h
      exact ⟨shNew, nbNew, hr, by simp [expectedNeighbors, reportPred, heq, hnb], hlen⟩
    · simp only [fsnAux, heq, if_false, Bool.false_eq_true] at h
      cases hov : Overlap self ep emptyBS with
      | none => simp [hov] at h
      | some ov =>
        simp only [hov] at h
        by_cases hemp : ov.base.isEmpty
        · simp only [hemp, if_true] at h
          obtain ⟨shNew, nbNew, hr, hnb, hlen⟩ := fsnAux_spec self rest sh nb (nidx + 1) r h
          refine ⟨shNew, nbNew, hr, ?_, hlen⟩
          simp [expectedNeighbors, reportPred, heq, hov, hemp, hnb]
        · simp only [hemp, if_false, Bool.false_eq_true] at h
          obtain ⟨shNew, nbNew, hr, hnb, hlen⟩ :=
            fsnAux_spec self rest (sh ++ [ov]) (nb ++ [nidx]) (nidx + 1) r h
          refine ⟨ov :: shNew, nidx :: nbNew, by simpa using hr, ?_, by simpa using hlen⟩
          simp [expectedNeighbors, reportPred, heq, hov, hemp, hnb]

/-! ### The `NodeNum` countdown -/

theorem sizeTPred_of_pos (i : Nat) (h0 : 0 < i) (hlt : i < 2 ^ 64) :
    sizeTPred i = i - 1 := by
  unfold sizeTPred
  have h : i + (2 ^ 64 - 1) = (i - 1) + 2 ^ 64 := by omega
  rw [h, Nat.add_mod_right]
  exact Nat.mod_eq_of_lt (by omega)

theorem sizeTPred_zero : sizeTPred 0 = 2 ^ 64 - 1 := by
  unfold sizeTPred
  exact Nat.mod_eq_of_lt (by norm_num)

theorem sizeTPred_iter_self : ∀ m : Nat, m < 2 ^ 64 → sizeTPred^[m] m = 0
  | 0, _ => rfl
  | m + 1, h => by
    rw [Function.iterate_succ_apply, sizeTPred_of_pos (m + 1) (Nat.succ_pos m) h]
    simpa using sizeTPred_iter_self m (by omega)

/-! ### Claim C1: when `Overlap` yields no region -/

/-- C1 counterexample: with `A = [[0,10]]` and `B = [[2,3]]` (valid
bounds, equal dimension 1), `Overlap(A,B)` yields no region although no
dimension has `A.hi < B.lo` or `B.hi < A.lo` — the claimed iff is false
at this input. -/
theorem claim1_counterexample :
    noRegionB (overlapRun (ofPairs [(0, 10)]) (ofPairs [(2, 3)])) = true ∧
    ¬ ((10 : Int) < 2 ∨ (3 : Int) < 0) := by decide

/-- C1 amended: for valid extents of equal dimension `D ≥ 1`,
`Overlap(A,B)` yields no region iff some dimension has both `A.lo` and
`A.hi` outside the closed range `[B.lo, B.hi]`; when a region exists it
is the per-dimension `[max(A.lo,B.lo), min(A.hi,B.hi)]` extent. -/
theorem claim1_overlap_none_iff (as bs : List (Int × Int))
    (hlen : as.length = bs.length) (hpos : 0 < as.length)
    (_hA : ∀ p ∈ as, p.1 ≤ p.2) (_hB : ∀ p ∈ bs, p.1 ≤ p.2) :
    (noRegionB (overlapRun (ofPairs as) (ofPairs bs)) = true ↔
      ∃ q ∈ as.zip bs,
        ¬ ((q.2.1 ≤ q.1.1 ∧ q.1.1 ≤ q.2.2) ∨ (q.2.1 ≤ q.1.2 ∧ q.1.2 ≤ q.2.2))) ∧
    (noRegionB (overlapRun (ofPairs as) (ofPairs bs)) = false →
      overlapRun (ofPairs as) (ofPairs bs) =
        some { base := regionOf as bs, nd := 0, N := [], Np := [] }) := by
  rw [overlapRun_ofPairs as bs hlen]
  by_cases hm : matchAll as bs = true
  · have hne : regionOf as bs ≠ [] := by
      intro hE
      have hl := regionOf_length as bs hlen
      rw [hE] at hl
      simp at hl
      omega
    constructor
    · simp only [hm, if_true, noRegionB]
      constructor
      · intro hE
        exact absurd (List.isEmpty_iff.mp hE) hne
      · rintro ⟨q, hq, hnot⟩
        simp only [matchAll, List.all_eq_true] at hm
        exact absurd (by simpa [dimMatchB] using hm q hq) hnot
    · intro _
      simp [hm]
  · have hm' : matchAll as bs = false := by simpa using hm
    constructor
    · simp only [hm', if_false, noRegionB, Bool.false_eq_true, List.isEmpty_nil, true_iff]
      simp only [matchAll] at hm
      rw [List.all_eq_true] at hm
      push_neg at hm
      obtain ⟨q, hq, hqne⟩ := hm
      refine ⟨q, hq, fun hcontra => hqne ?_⟩
      rcases hcontra with ⟨h1, h2⟩ | ⟨h1, h2⟩ <;> simp [dimMatchB, h1, h2]
    · intro hfalse
      simp [hm', noRegionB] at hfalse

/-- Witness for C1 amended at `A = [[0,2]]`, `B = [[5,6]]`. -/
theorem claim1_witness :
    (noRegionB (overlapRun (ofPairs [((0 : Int), (2 : Int))])
        (ofPairs [((5 : Int), (6 : Int))])) = true ↔
      ∃ q ∈ [((0 : Int), (2 : Int))].zip [((5 : Int), (6 : Int))],
        ¬ ((q.2.1 ≤ q.1.1 ∧ q.1.1 ≤ q.2.2) ∨ (q.2.1 ≤ q.1.2 ∧ q.1.2 ≤ q.2.2))) ∧
    (noRegionB (overlapRun (ofPairs [((0 : Int), (2 : Int))])
        (ofPairs [((5 : Int), (6 : Int))])) = false →
      overlapRun (ofPairs [((0 : Int), (2 : Int))]) (ofPairs [((5 : Int), (6 : Int))]) =
        some { base := regionOf [((0 : Int), (2 : Int))] [((5 : Int), (6 : Int))],
               nd := 0, N := [], Np := [] }) :=
  claim1_overlap_none_iff _ _ (by decide) (by decide) (by decide) (by decide)

/-! ### Claim C4: symmetry of `Overlap` -/

/-- C4 counterexample: `A = [[0,9]]`, `B = [[4,5]]`:
`Overlap(A,B)` yields no region while `Overlap(B,A)` yields `[[4,5]]`,
so the two calls do not agree as index sets. -/
theorem claim4_counterexample :
    noRegionB (overlapRun (ofPairs [(0, 9)]) (ofPairs [(4, 5)])) = true ∧
    overlapRun (ofPairs [(4, 5)]) (ofPairs [(0, 9)]) =
      some { base := [[4, 5]], nd := 0, N := [], Np := [] } := by decide

/-- C4 amended: when `Overlap(A,B)` and `Overlap(B,A)` both yield a
region, the two regions are identical; existence of a region, however,
is not symmetric. -/
theorem claim4_amended (as bs : List (Int × Int)) (hlen : as.length = bs.length)
    (e f : BSExtent)
    (he : overlapRun (ofPairs as) (ofPairs bs) = some e)
    (hf : overlapRun (ofPairs bs) (ofPairs as) = some f)
    (hne : e.base ≠ []) (hnf : f.base ≠ []) : e = f := by
  rw [overlapRun_ofPairs as bs hlen] at he
  rw [overlapRun_ofPairs bs as hlen.symm] at hf
  by_cases hm1 : matchAll as bs = true
  · by_cases hm2 : matchAll bs as = true
    · simp only [hm1, hm2, if_true, Option.some_inj] at he hf
      rw [← he, ← hf, regionOf_comm as bs]
    · have hm2' : matchAll bs as = false := by simpa using hm2
      simp only [hm2', if_false, Bool.false_eq_true, Option.some_inj] at hf
      rw [← hf] at hnf
      simp at hnf
  · have hm1' : matchAll as bs = false := by simpa using hm1
    simp only [hm1', if_false, Bool.false_eq_true, Option.some_inj] at he
    rw [← he] at hne
    simp at hne

/-- Witness for C4 amended at `A = [[0,2]]`, `B = [[1,3]]`, where both
directions produce the region `[[1,2]]`. -/
theorem claim4_witness :
    ({ base := [[1, 2]], nd := 0, N := [], Np := [] } : BSExtent) =
      { base := [[1, 2]], nd := 0, N := [], Np := [] } :=
  claim4_amended [(0, 2)] [(1, 3)] rfl
    { base := [[1, 2]], nd := 0, N := [], Np := [] }
    { base := [[1, 2]], nd := 0, N := [], Np := [] }
    (by decide) (by decide) (by decide) (by decide)

/-! ### Claim C2: self-exclusion in `FindSharedNodes` -/

/-- C2 counterexample: a pool of two entries whose bounds both equal the
querying extent's bounds.  The claim requires the slot other than self's
position to be compared and reported (its overlap is the full `[[0,1]]`
region), but the code skips both entries by value equality and reports
nothing. -/
theorem claim2_counterexample :
    FindSharedNodes (ofPairs [(0, 1)]) [ofPairs [(0, 1)], ofPairs [(0, 1)]] [] [] =
      some ([], []) ∧
    overlapRun (ofPairs [(0, 1)]) (ofPairs [(0, 1)]) =
      some { base := [[0, 1]], nd := 0, N := [], Np := [] } := by decide

/-- C2 amended: `FindSharedNodes` skips every pool entry whose bound
vector equals the querying extent's (value identity, not positional
identity); for the remaining entries it computes `Overlap(self, pool[i])`
and reports exactly the value-distinct entries with non-empty overlap,
as pool positions in pool order. -/
theorem claim2_amended (self : BSExtent) (pool sharedPrev : List BSExtent)
    (prev : List Int) (r : List BSExtent × List Int)
    (h : FindSharedNodes self pool sharedPrev prev = some r) :
    r.2 = prev ++ expectedNeighbors self pool 0 ∧
    r.1.length = (expectedNeighbors self pool 0).length := by
  obtain ⟨shNew, nbNew, hr, hnb, hlen⟩ := fsnAux_spec self pool [] prev 0 r h
  subst hr
  constructor
  · simp [hnb]
  · simpa [← hnb] using hlen

/-- Witness for C2 amended: self `[[0,1]]`, pool `[[[5,6]], [[1,3]]]`;
only pool slot 1 is reported, with overlap `[[1,1]]`. -/
theorem claim2_witness :
    (([{ base := [[1, 1]], nd := 0, N := [], Np := [] }], [(1 : Int)]) :
        List BSExtent × List Int).2 =
      [] ++ expectedNeighbors (ofPairs [(0, 1)]) [ofPairs [(5, 6)], ofPairs [(1, 3)]] 0 ∧
    (([{ base := [[1, 1]], nd := 0, N := [], Np := [] }], [(1 : Int)]) :
        List BSExtent × List Int).1.length =
      (expectedNeighbors (ofPairs [(0, 1)]) [ofPairs [(5, 6)], ofPairs [(1, 3)]] 0).length :=
  claim2_amended (ofPairs [(0, 1)]) [ofPairs [(5, 6)], ofPairs [(1, 3)]] [] []
    ([{ base := [[1, 1]], nd := 0, N := [], Np := [] }], [(1 : Int)]) (by decide)

/-! ### Claim C3: derived fields stay consistent with bounds -/

/-- C3 counterexample: `Overlap([[2,3]], [[0,5]])` returns the region
extent with bound row `[[2,3]]` but with the default-constructed output
extent's derived fields (`_nd = 0`, `_N = []`, `_Np = []`), which are
stale relative to its bounds. -/
theorem claim3_counterexample :
    overlapRun (ofPairs [(2, 3)]) (ofPairs [(0, 5)]) =
      some { base := [[2, 3]], nd := 0, N := [], Np := [] } ∧
    ¬ derivedOK { base := [[2, 3]], nd := 0, N := [], Np := [] } := by decide

/-- C3 amended: every construction path that runs `Sync` leaves the
derived size/stride fields consistent with the bounds, but `Overlap`
never resyncs its output extent: the returned extent keeps the output
argument's previous `_nd`, `_N`, `_Np` unchanged, stale relative to the
freshly written bounds. -/
theorem claim3_amended :
    (∀ e0 e : BSExtent, Sync e0 = some e → derivedOK e) ∧
    (∀ A B prev e : BSExtent, Overlap A B prev = some e →
      e.nd = prev.nd ∧ e.N = prev.N ∧ e.Np = prev.Np) :=
  ⟨sync_derivedOK, overlap_keeps_prev_derived⟩

/-- Witness for C3 amended: `Sync` on bounds `[[0,4]]` yields consistent
derived fields, and `Overlap([[9,9]], [[8,10]])` into a
default-constructed output keeps that output's empty derived fields. -/
theorem claim3_witness :
    derivedOK { base := [[0, 4]], nd := 1, N := [5], Np := [1] } ∧
    (({ base := [[9, 9]], nd := 0, N := [], Np := [] } : BSExtent).nd = emptyBS.nd ∧
     ({ base := [[9, 9]], nd := 0, N := [], Np := [] } : BSExtent).N = emptyBS.N ∧
     ({ base := [[9, 9]], nd := 0, N := [], Np := [] } : BSExtent).Np = emptyBS.Np) :=
  ⟨claim3_amended.1 { base := [[0, 4]], nd := 0, N := [], Np := [] }
      { base := [[0, 4]], nd := 1, N := [5], Np := [1] } (by decide),
   claim3_amended.2 (ofPairs [(9, 9)]) (ofPairs [(8, 10)]) emptyBS
      { base := [[9, 9]], nd := 0, N := [], Np := [] } (by decide)⟩

/-! ### Claim C5: constructor validation -/

/-- C5 counterexample: the flat constructor silently accepts the
odd-length sequence `[0,5,7]` (dropping the trailing `7`) and the
`lo > hi` pair `[5,0]`; no `InvalidDimension` failure exists. -/
theorem claim5_counterexample :
    mkFlat [0, 5, 7] = some { base := [[0, 5]], nd := 1, N := [6], Np := [1] } ∧
    mkFlat [5, 0] =
      some { base := [[5, 0]], nd := 1, N := [18446744073709551612], Np := [1] } := by
  decide

/-- C5 amended: construction performs no validation.  Every flat
sequence with at least two entries is accepted: an odd-length sequence
is silently truncated (the last value is never read, `D = ⌊n/2⌋`) and
`lo > hi` pairs are stored unchanged; no `InvalidDimension` error is
ever raised.  (Inputs of fewer than two values make `Sync` perform the
out-of-range `_Np[0]` write instead of reporting anything.) -/
theorem claim5_amended (a b : Int) (t : List Int) :
    ∃ e, mkFlat (a :: b :: t) = some e ∧ e.base = chunk2 (a :: b :: t) ∧
      e.nd = (a :: b :: t).length / 2 := by
  obtain ⟨ns, hns⟩ := syncN_chunk2 (a :: b :: t)
  refine ⟨{ base := chunk2 (a :: b :: t), nd := (chunk2 (a :: b :: t)).length,
            N := ns, Np := strideList ns 1 }, ?_, rfl, ?_⟩
  · unfold mkFlat Sync
    simp only [hns, Option.bind_eq_bind, Option.some_bind]
    have hz : (chunk2 (a :: b :: t)).length ≠ 0 := by simp [chunk2]
    simp [hz]
  · simp [chunk2_length]

/-! ### Claim C6: dimension-mismatch handling -/

/-- C6 counterexample: `Overlap` and `GetFlatIndices` on operands of
different dimension counts (`D = 1` vs `D = 2`) do not fail at all —
both return ordinary results computed from the first operand's
dimensions. -/
theorem claim6_counterexample :
    overlapRun (ofPairs [(0, 1)]) (ofPairs [(0, 1), (0, 1)]) ≠ none ∧
    GetFlatIndices (ofPairs [(0, 1)]) (ofPairs [(0, 1), (0, 1)]) ≠ none := by decide

/-- C6 amended: no dimension check exists.  `Overlap` iterates over the
receiver's `D` dimensions: a higher-dimensional second operand has its
extra dimensions ignored and a region is still produced, while a
lower-dimensional one makes the match loop read past the end of its
bound vector (undefined behaviour, `none` here).  `GetFlatIndices`
behaves the same with the roles of `self` and the query. -/
theorem claim6_amended :
    overlapRun (ofPairs [(0, 1)]) (ofPairs [(0, 1), (0, 1)]) =
      some { base := [[0, 1]], nd := 0, N := [], Np := [] } ∧
    overlapRun (ofPairs [(0, 1), (0, 1)]) (ofPairs [(0, 1)]) = none ∧
    GetFlatIndices (ofPairs [(0, 1), (0, 1)]) (ofPairs [(0, 1)]) = none ∧
    GetFlatIndices (ofPairs [(0, 1)]) (ofPairs [(0, 1), (0, 1)]) = some [1, 2] := by
  decide

/-! ### Claim C7: the `NodeNum` countdown never exits -/

/-- C7: the `NodeNum` loop tests `i >= 0` on a `size_t` counter starting
at `_nd - 1`.  For every extent with `D ≥ 1` the guard holds after any
number of decrements (so the loop never exits through its condition),
and after `_nd` decrements the counter has wrapped to `2^64 - 1`
(underflow). -/
theorem claim7_nodenum_countdown (e : BSExtent) (h1 : 1 ≤ e.nd) (h2 : e.nd < 2 ^ 64) :
    (∀ k : Nat, nodeNumGuard (sizeTPred^[k] (e.nd - 1)) = true) ∧
    sizeTPred^[e.nd] (e.nd - 1) = 2 ^ 64 - 1 := by
  constructor
  · intro k
    simp [nodeNumGuard]
  · have hnd : e.nd = (e.nd - 1) + 1 := by omega
    conv_lhs => rw [hnd]
    rw [Function.iterate_succ_apply', Nat.add_sub_cancel,
      sizeTPred_iter_self (e.nd - 1) (by omega), sizeTPred_zero]

/-- Witness for C7 at a one-dimensional extent. -/
theorem claim7_witness :
    nodeNumGuard (sizeTPred^[5] ((ofPairs [((0 : Int), (3 : Int))]).nd - 1)) = true ∧
    sizeTPred^[(ofPairs [((0 : Int), (3 : Int))]).nd]
      ((ofPairs [((0 : Int), (3 : Int))]).nd - 1) = 2 ^ 64 - 1 :=
  ⟨(claim7_nodenum_countdown (ofPairs [(0, 3)]) (by decide) (by decide)).1 5,
   (claim7_nodenum_countdown (ofPairs [(0, 3)]) (by decide) (by decide)).2⟩

/-! ### Claim C8: `GetFlatIndices` at dimension zero -/

/-- C8 counterexample: with `self` and `query` both of dimension 0,
`GetFlatIndices` does not return the empty index sequence. -/
theorem claim8_counterexample : GetFlatIndices emptyBS emptyBS ≠ some [] := by decide

/-- C8 amended: with a zero-dimensional `self`, `GetFlatIndices` hits
the out-of-range write `NP[0] = 0` on the empty local stride vector
(and `dir_loop` would follow with the out-of-range read `NP[-1]`): the
call is undefined behaviour, not an empty sequence, for every query. -/
theorem claim8_amended (query : BSExtent) : GetFlatIndices emptyBS query = none := rfl

/-! ### Claim C9: unit-cell structured-to-unstructured conversion -/

/-- C9: converting the unit cell `[[0,1],[0,1],[0,1]]` emits exactly one
element: the 8-node hexahedron `[1,2,4,3,5,6,8,7]` (base quad with
`rowStride = 2`, then the same four nodes offset by `planeStride = 4`). -/
theorem claim9_unit_cube_hex :
    (mkNested [[0, 1], [0, 1], [0, 1]]).bind CreateUnstructuredMesh =
      some [[1, 2, 4, 3, 5, 6, 8, 7]] := by decide

/-! ### Claim C10: `FindSharedNodes` never resets the neighbor vector -/

/-- C10: `FindSharedNodes` discards any previous contents of the shared
overlap-extents vector (its result does not depend on them), but the
neighbor-index vector is only appended to: the previous contents stay in
front, the number of appended indices equals the number of returned
overlap extents, and a call made with a non-empty neighbor vector
returns output sequences of different lengths. -/
theorem claim10_neighbors_not_reset (self : BSExtent) (pool sharedPrev : List BSExtent)
    (prev : List Int) (r : List BSExtent × List Int)
    (h : FindSharedNodes self pool sharedPrev prev = some r) :
    (∀ sharedPrev2 : List BSExtent, FindSharedNodes self pool sharedPrev2 prev = some r) ∧
    (∃ newNb, r.2 = prev ++ newNb ∧ newNb.length = r.1.length) ∧
    (prev ≠ [] → r.1.length ≠ r.2.length) := by
  obtain ⟨shNew, nbNew, hr, hnb, hlen⟩ := fsnAux_spec self pool [] prev 0 r h
  subst hr
  refine ⟨fun _ => h, ⟨nbNew, rfl, by simpa using hlen.symm⟩, ?_⟩
  intro hne
  simp only [List.nil_append, List.length_append]
  intro hcontra
  apply hne
  have hpl : prev.length = 0 := by omega
  exact List.length_eq_zero.mp hpl

/-- Witness for C10: a call with non-empty previous neighbor contents
`[7]` returns a neighbor vector `[7, 0]` longer than the single-element
overlap vector. -/
theorem claim10_witness :
    FindSharedNodes (ofPairs [((0 : Int), (2 : Int))]) [ofPairs [(1, 4)]] [emptyBS] [7] =
      some ([{ base := [[1, 2]], nd := 0, N := [], Np := [] }], [7, 0]) ∧
    (([(7 : Int)] : List Int) ≠ [] →
      ([({ base := [[1, 2]], nd := 0, N := [], Np := [] } : BSExtent)] :
          List BSExtent).length ≠ ([(7 : Int), 0] : List Int).length) :=
  ⟨(claim10_neighbors_not_reset (ofPairs [(0, 2)]) [ofPairs [(1, 4)]] [] [7]
      ([{ base := [[1, 2]], nd := 0, N := [], Np := [] }], [7, 0]) (by decide)).1 [emptyBS],
   (claim10_neighbors_not_reset (ofPairs [(0, 2)]) [ofPairs [(1, 4)]] [] [7]
      ([{ base := [[1, 2]], nd := 0, N := [], Np := [] }], [7, 0]) (by decide)).2.2⟩

end Mesh
end SolverUtils

